import Mathlib

/-!
Verification of the per-service value-tracking and normalization pipeline of
the expvarmon monitor, embedded shallowly from `src/service.go`.

Modelling conventions:
* JSON documents (the `jason` library values the code consumes) are the
  inductive `JValue`.  A JSON number carries whether it was written as an
  integer literal, since `jason.Value.Int64` succeeds exactly on integer
  literals that fit in 64 bits while `Float64` succeeds on every number.
* Go's `float64` is modelled by `ℚ`.  Every concrete value appearing in the
  claims (small integers, 1.5, 2.5 and their exact means) is exactly
  representable in `float64`, where IEEE arithmetic coincides with rational
  arithmetic, so the model is faithful at all claim-relevant inputs.
* Go errors are modelled as `Option String` / `Except String`; only
  nil-ness of an error is ever branched on by the code.
* The `Update` method receives the result of the external `FetchExpvar`
  collaborator (document and error) as parameters.
-/

namespace Expvarmon

/-- A parsed JSON value as handed over by the external document fetcher.
`jint` is a number written as an integer literal, `jfloat` any other
number literal (value modelled by `ℚ`). -/
inductive JValue where
  | jnull : JValue
  | jbool (b : Bool) : JValue
  | jint (n : Int) : JValue
  | jfloat (q : ℚ) : JValue
  | jstr (s : String) : JValue
  | jarr (elems : List JValue) : JValue
  | jobj (fields : List (String × JValue)) : JValue

/-- The canonical scalar produced by normalization: the dynamic result type
of `guessValue` (Go `interface\x7b\x7d` holding an int64/int, float64, bool or
string). -/
inductive CanValue where
  | int (n : Int) : CanValue
  | float (q : ℚ) : CanValue
  | bool (b : Bool) : CanValue
  | str (s : String) : CanValue
deriving DecidableEq

/-- Smallest value of Go's `int64`. -/
def int64Min : Int := -(2 ^ 63)

/-- Largest value of Go's `int64`. -/
def int64Max : Int := 2 ^ 63 - 1

/-- `jason.Value.Int64`: succeeds exactly on a number written as an integer
literal whose value fits in a signed 64-bit integer. -/
def asInt64 : JValue → Option Int
  | .jint n => if int64Min ≤ n ∧ n ≤ int64Max then some n else none
  | _ => none

/-- `jason.Value.Float64`: succeeds exactly on a JSON number (float64
rounding is modelled exactly, see the module comment). -/
def asFloat64 : JValue → Option ℚ
  | .jint n => some (n : ℚ)
  | .jfloat q => some q
  | _ => none

/-- `jason.Value.Boolean`: succeeds exactly on a JSON boolean. -/
def asBoolean : JValue → Option Bool
  | .jbool b => some b
  | _ => none

/-- `jason.Value.String`: succeeds exactly on a JSON string. -/
def asString : JValue → Option String
  | .jstr s => some s
  | _ => none

/-- `jason.Value.Array`: succeeds exactly on a JSON array. -/
def asArray : JValue → Option (List JValue)
  | .jarr xs => some xs
  | _ => none

/-- Modelled from the spec: `averageJason` is code of this repository that is
not under src/.  Per the spec's array rule it is the arithmetic mean of the
elements' own numeric (float) interpretation; a non-numeric element is
undefined for the mean and is modelled as contributing nothing to the sum,
with the division still by the total element count. -/
def averageJason (xs : List JValue) : ℚ :=
  (xs.map (fun v => (asFloat64 v).getD 0)).sum / (xs.length : ℚ)

/-- Truncation toward zero, modelling Go's `int64(avg)` conversion of a
float64 to an integer (for in-range values). -/
def truncQ (q : ℚ) : Int := Int.tdiv q.num (q.den : Int)

/-- `guessValue` from src/service.go lines 143-172: brute-forces the
supported interpretations of a JSON value in the written order, first
success wins; an array is averaged, an empty array is treated as zero, and
the average is cast to an integer when the first element is itself an
int64; anything else yields nil. -/
def guessValue (value : JValue) : Option CanValue :=
  match asInt64 value with
  | some v => some (.int v)
  | none =>
  match asFloat64 value with
  | some v => some (.float v)
  | none =>
  match asBoolean value with
  | some v => some (.bool v)
  | none =>
  match asString value with
  | some v => some (.str v)
  | none =>
  match asArray value with
  | some [] => some (.int 0)
  | some (h :: t) =>
    let avg := averageJason (h :: t)
    if (asInt64 h).isSome then some (.int (truncQ avg)) else some (.float avg)
  | none => none

/-- The array rule exactly as the spec words it, used as the array branch of
`normalizeSpec`. -/
def normalizeArray (xs : List JValue) : CanValue :=
  match xs with
  | [] => .int 0
  | h :: t =>
    if (asInt64 h).isSome then .int (truncQ (averageJason (h :: t)))
    else .float (averageJason (h :: t))

/-- The normalization procedure as the spec words it: attempt the
interpretations 64-bit integer, 64-bit float, boolean, string, array in
this fixed priority order, first success wins; anything matching none of
them yields nothing. -/
def normalizeSpec (value : JValue) : Option CanValue :=
  ((asInt64 value).map CanValue.int) <|>
  ((asFloat64 value).map CanValue.float) <|>
  ((asBoolean value).map CanValue.bool) <|>
  ((asString value).map CanValue.str) <|>
  ((asArray value).map normalizeArray)

/-- Go's `type VarName string`: a dotted path identifying a value in the
debug document, with an optional display-kind annotation encoded in the
name. -/
structure VarName where
  raw : String
deriving DecidableEq

/-- Splitting a character list at every occurrence of a separator
character (the split used by name parsing, over the string's character
data). -/
def splitOnChar (c : Char) : List Char → List (List Char)
  | [] => [[]]
  | x :: xs =>
    if x == c then [] :: splitOnChar c xs
    else
      match splitOnChar c xs with
      | [] => [[x]]
      | r :: rs => (x :: r) :: rs

/-- Modelled from the spec: `VarName`'s accessors live in repository code
that is not under src/.  A variable name is a dotted path plus an optional
trailing kind annotation separated by a colon; `ToSlice` yields the path
split on "." into segments.  Malformed input is accepted permissively. -/
def VarName.ToSlice (v : VarName) : List String :=
  let path :=
    match splitOnChar ':' v.raw.data with
    | [p, _] => p
    | _ => v.raw.data
  (splitOnChar '.' path).map String.mk

/-- Modelled from the spec: the optional kind annotation of a variable
name, used purely to select a display formatter; defaults to "none" when
absent. -/
def VarName.Kind (v : VarName) : String :=
  match splitOnChar ':' v.raw.data with
  | [_, k] => String.mk k
  | _ => "none"

/-- uptimeCounter from src/service.go line 19: the path of the monotonic
uptime counter, `memstats.PauseTotalNs`. -/
def uptimeCounter : List String := VarName.ToSlice ⟨"memstats.PauseTotalNs"⟩

/-- Modelled from the spec: the process-wide history capacity N of every
`Stack`.  Its concrete value is fixed at construction and not given by the
spec; the development fixes one positive constant. -/
def stackCapacity : Nat := 15

/-- Modelled from the spec: the `Stack` history buffer is repository code
that is not under src/.  It holds the recorded values oldest first (an
entry is `none` for an explicit Absent push) and a separately tracked
running maximum. -/
structure Stack where
  Values : List (Option CanValue)
  Max : Option CanValue
deriving DecidableEq

/-- The numeric reading of a canonical value, used for the maximum. -/
def numValue : CanValue → Option ℚ
  | .int n => some (n : ℚ)
  | .float q => some q
  | _ => none

/-- Modelled from the spec: `Push` appends the value at the tail, evicts
the head when the length would exceed the capacity, and updates the
maximum when the pushed value is numeric and either no maximum is recorded
yet or the value exceeds the current maximum. -/
def Stack.Push (st : Stack) (v : Option CanValue) : Stack :=
  let vals := st.Values ++ [v]
  let vals := if stackCapacity < vals.length then vals.tail else vals
  let mx :=
    match v.bind numValue with
    | none => st.Max
    | some q =>
      match st.Max.bind numValue with
      | none => v
      | some mq => if mq < q then v else st.Max
  { Values := vals, Max := mx }

/-- Modelled from the spec: `Front` is the most recently pushed value, or
the empty indicator if the buffer has never been pushed to. -/
def Stack.Front (st : Stack) : Option CanValue :=
  match st.Values.getLast? with
  | none => none
  | some v => v

/-- Modelled from the spec: a freshly constructed, empty history buffer. -/
def NewStack : Stack := { Values := [], Max := none }

/-- Field lookup in a JSON object, as the document fetcher's path walk
performs it. -/
def lookupField (fields : List (String × JValue)) (key : String) : Option JValue :=
  match fields with
  | [] => none
  | (k, v) :: rest => if k == key then some v else lookupField rest key

/-- Walking a dotted path through nested JSON objects. -/
def getPath (v : JValue) : List String → Option JValue
  | [] => some v
  | key :: rest =>
    match v with
    | .jobj fields =>
      match lookupField fields key with
      | some w => getPath w rest
      | none => none
    | _ => none

/-- Modelled from the spec: the document fetcher's generic
get-raw-value-at-path lookup (`Expvar.GetValue`). -/
def getValue (doc : JValue) (path : List String) : Except String JValue :=
  match getPath doc path with
  | some v => .ok v
  | none => .error "key not found"

/-- Modelled from the spec: the document fetcher's `GetInt64`: the raw
value at the path interpreted as a 64-bit integer. -/
def getInt64 (doc : JValue) (path : List String) : Except String Int :=
  match getPath doc path with
  | none => .error "key not found"
  | some v =>
    match asInt64 v with
    | some n => .ok n
    | none => .error "not an int64"

/-- Modelled from the spec: the document fetcher's `GetStringArray`: the
raw value at the path as an array whose elements must all be strings. -/
def getStringArray (doc : JValue) (path : List String) : Except String (List String) :=
  match getPath doc path with
  | none => .error "key not found"
  | some v =>
    match asArray v with
    | none => .error "not an array"
    | some xs =>
      match xs.mapM asString with
      | some ss => .ok ss
      | none => .error "element is not a string"

/-- Modelled from the spec: `BaseCommand` is repository code that is not
under src/.  It derives a short display name from the first token of the
command line: the base command name, i.e. the part after the final path
separator. -/
def BaseCommand (cmdline : List String) : String :=
  match cmdline.head? with
  | none => ""
  | some tok => String.mk ((splitOnChar '/' tok.data).getLastD tok.data)

/-- Modelled from the spec: the external `Formatter` collaborator.  It is
total; humanized byte/duration rendering is outside the core's scope, so
the model renders the canonical value as plain text for every kind. -/
def Format (v : CanValue) (_kind : String) : String :=
  match v with
  | .int n => toString n
  | .float q => toString q.num ++ "/" ++ toString q.den
  | .bool b => if b then "true" else "false"
  | .str s => s

/-- The network address of a monitored endpoint (`url.URL`); only the host
is consumed by the embedded core. -/
structure URL where
  host : String

/-- Service from src/service.go lines 23-39: constantly updating info
about a single monitored service.  The per-variable buffer map (the Go
field `stacks`, a name Lean reserves, hence `stackMap` here) sends every
tracked name to its buffer; the serialization handle is an external
collaborator and is not part of the embedded state. -/
structure Service where
  URL : URL
  Name : String
  Cmdline : String
  vars : List VarName
  stackMap : VarName → Option Stack
  Err : Option String
  Restarted : Bool
  UptimeCounter : Int

/-- NewService from src/service.go lines 42-74 (without the external CSV
sink): one fresh empty stack per tracked variable, the host as the initial
name, and zero values elsewhere. -/
def NewService (url : URL) (vars : List VarName) : Service :=
  { URL := url
    Name := url.host
    Cmdline := ""
    vars := vars
    stackMap := fun n => if n ∈ vars then some NewStack else none
    Err := none
    Restarted := false
    UptimeCounter := 0 }

/-- src/service.go lines 89-93: the restart check against the fetch
outcome.  If the previous tick left an error and this fetch succeeded, the
service is marked restarted; the stored error is then overwritten with the
fetch error. -/
def Service.restartCheck (s : Service) (ferr : Option String) : Service :=
  { s with
    Restarted := if s.Err.isSome && ferr.isNone then true else s.Restarted
    Err := ferr }

/-- src/service.go lines 95-105: read the uptime counter; on failure record
the error, on success mark the service restarted when the counter
regressed and always overwrite the stored counter. -/
def Service.counterStep (s : Service) (doc : JValue) : Service :=
  match getInt64 doc uptimeCounter with
  | .error e => { s with Err := some e }
  | .ok c =>
    { s with
      Restarted := if s.UptimeCounter > c then true else s.Restarted
      UptimeCounter := c }

/-- src/service.go lines 107-116: resolve command line and name only while
the stored command line is still empty; on failure record the error, on
success join the tokens and derive the display name. -/
def Service.cmdlineStep (s : Service) (doc : JValue) : Service :=
  if s.Cmdline.length == 0 then
    match getStringArray doc ["cmdline"] with
    | .error e => { s with Err := some e }
    | .ok cmdline =>
      { s with
        Cmdline := String.intercalate " " cmdline
        Name := BaseCommand cmdline }
  else s

/-- src/service.go lines 120-128, for one tracked variable's stack: on
extraction failure push nil; otherwise normalize and push only when the
normalization produced a value. -/
def varStep (doc : JValue) (name : VarName) (st : Stack) : Stack :=
  match getValue doc (VarName.ToSlice name) with
  | .error _ => st.Push none
  | .ok value =>
    match guessValue value with
    | none => st
    | some v => st.Push (some v)

/-- src/service.go lines 118-129: every tracked variable's stack is updated
independently by `varStep`; nothing else of the state is touched. -/
def Service.varsStep (s : Service) (doc : JValue) : Service :=
  { s with stackMap := fun n => (s.stackMap n).map (varStep doc n) }

/-- Update from src/service.go lines 86-141 (without the external CSV
sink): one poll tick, taking the external fetcher's result (document and
error) as input. -/
def Service.Update (s : Service) (doc : JValue) (ferr : Option String) : Service :=
  (((s.restartCheck ferr).counterStep doc).cmdlineStep doc).varsStep doc

/-- Value from src/service.go lines 177-192: the current display string of
one variable; a set error, an untracked name or an empty front all yield
the not-available sentinel. -/
def Service.Value (s : Service) (name : VarName) : String :=
  if s.Err.isSome then "N/A"
  else
    match s.stackMap name with
    | none => "N/A"
    | some st =>
      match st.Front with
      | none => "N/A"
      | some v => Format v (VarName.Kind name)

/-- The empty debug document (also what the fetcher hands over on a failed
fetch). -/
def emptyDoc : JValue := .jobj []

/-- A healthy debug document: uptime counter at 100 and a command line. -/
def docGood : JValue :=
  .jobj [("memstats", .jobj [("PauseTotalNs", .jint 100)]),
         ("cmdline", .jarr [.jstr "/bin/app"])]

/-- A debug document whose uptime counter regressed to 40. -/
def doc40 : JValue :=
  .jobj [("memstats", .jobj [("PauseTotalNs", .jint 40)]),
         ("cmdline", .jarr [.jstr "/bin/app"])]

/-- A debug document carrying a different command line. -/
def docOther : JValue :=
  .jobj [("memstats", .jobj [("PauseTotalNs", .jint 500)]),
         ("cmdline", .jarr [.jstr "/usr/bin/other", .jstr "-flag"])]

/-- A freshly constructed service tracking one variable. -/
def svcFresh : Service := NewService ⟨"localhost:9999"⟩ [⟨"x"⟩]

/-- A service that has already observed counter value 250 and resolved its
command line. -/
def svc250 : Service := { svcFresh with Cmdline := "/bin/app", UptimeCounter := 250 }

/-- A service whose restart flag is already set. -/
def svcRestarted : Service := { svcFresh with Restarted := true }

/-- A service whose last tick recorded an error. -/
def svcErr : Service := { svcFresh with Err := some "boom" }

theorem restartCheck_Err (s : Service) (ferr : Option String) :
    (s.restartCheck ferr).Err = ferr := rfl

theorem restartCheck_Restarted (s : Service) (ferr : Option String) :
    (s.restartCheck ferr).Restarted =
      if s.Err.isSome && ferr.isNone then true else s.Restarted := rfl

theorem restartCheck_Cmdline (s : Service) (ferr : Option String) :
    (s.restartCheck ferr).Cmdline = s.Cmdline := rfl

theorem restartCheck_Name (s : Service) (ferr : Option String) :
    (s.restartCheck ferr).Name = s.Name := rfl

theorem restartCheck_stackMap (s : Service) (ferr : Option String) :
    (s.restartCheck ferr).stackMap = s.stackMap := rfl

theorem counterStep_Cmdline (s : Service) (doc : JValue) :
    (s.counterStep doc).Cmdline = s.Cmdline := by
  unfold Service.counterStep
  split <;> rfl

theorem counterStep_Name (s : Service) (doc : JValue) :
    (s.counterStep doc).Name = s.Name := by
  unfold Service.counterStep
  split <;> rfl

theorem counterStep_stackMap (s : Service) (doc : JValue) :
    (s.counterStep doc).stackMap = s.stackMap := by
  unfold Service.counterStep
  split <;> rfl

theorem counterStep_Restarted_mono (s : Service) (doc : JValue)
    (h : s.Restarted = true) : (s.counterStep doc).Restarted = true := by
  unfold Service.counterStep
  split
  · exact h
  · simp [h]

theorem counterStep_Err_isSome (s : Service) (doc : JValue)
    (h : s.Err.isSome = true) : ((s.counterStep doc).Err).isSome = true := by
  unfold Service.counterStep
  split
  · rfl
  · exact h

theorem cmdlineStep_Restarted (s : Service) (doc : JValue) :
    (s.cmdlineStep doc).Restarted = s.Restarted := by
  unfold Service.cmdlineStep
  split
  · split <;> rfl
  · rfl

theorem cmdlineStep_UptimeCounter (s : Service) (doc : JValue) :
    (s.cmdlineStep doc).UptimeCounter = s.UptimeCounter := by
  unfold Service.cmdlineStep
  split
  · split <;> rfl
  · rfl

theorem cmdlineStep_stackMap (s : Service) (doc : JValue) :
    (s.cmdlineStep doc).stackMap = s.stackMap := by
  unfold Service.cmdlineStep
  split
  · split <;> rfl
  · rfl

theorem cmdlineStep_Err_isSome (s : Service) (doc : JValue)
    (h : s.Err.isSome = true) : ((s.cmdlineStep doc).Err).isSome = true := by
  unfold Service.cmdlineStep
  split
  · split
    · rfl
    · exact h
  · exact h

theorem cmdlineStep_skip (s : Service) (doc : JValue)
    (h : (s.Cmdline.length == 0) = false) : s.cmdlineStep doc = s := by
  unfold Service.cmdlineStep
  simp [h]

theorem varsStep_Err (s : Service) (doc : JValue) :
    (s.varsStep doc).Err = s.Err := rfl

theorem varsStep_Restarted (s : Service) (doc : JValue) :
    (s.varsStep doc).Restarted = s.Restarted := rfl

theorem varsStep_Cmdline (s : Service) (doc : JValue) :
    (s.varsStep doc).Cmdline = s.Cmdline := rfl

theorem varsStep_Name (s : Service) (doc : JValue) :
    (s.varsStep doc).Name = s.Name := rfl

theorem varsStep_stackMap (s : Service) (doc : JValue) (name : VarName) :
    (s.varsStep doc).stackMap name = (s.stackMap name).map (varStep doc name) := rfl

theorem update_stackMap (s : Service) (doc : JValue) (ferr : Option String)
    (name : VarName) :
    (s.Update doc ferr).stackMap name = (s.stackMap name).map (varStep doc name) := by
  unfold Service.Update
  rw [varsStep_stackMap, cmdlineStep_stackMap, counterStep_stackMap, restartCheck_stackMap]

theorem update_Restarted_mono (s : Service) (doc : JValue) (ferr : Option String)
    (h : s.Restarted = true) : (s.Update doc ferr).Restarted = true := by
  unfold Service.Update
  rw [varsStep_Restarted, cmdlineStep_Restarted]
  apply counterStep_Restarted_mono
  rw [restartCheck_Restarted, h]
  simp

theorem update_restarted_of_prev_err (s : Service) (doc : JValue)
    (h : s.Err.isSome = true) : (s.Update doc none).Restarted = true := by
  unfold Service.Update
  rw [varsStep_Restarted, cmdlineStep_Restarted]
  apply counterStep_Restarted_mono
  rw [restartCheck_Restarted, h]
  simp

theorem update_Err_isSome_of_fetch_failure (s : Service) (doc : JValue) (e : String) :
    ((s.Update doc (some e)).Err).isSome = true := by
  unfold Service.Update
  rw [varsStep_Err]
  apply cmdlineStep_Err_isSome
  apply counterStep_Err_isSome
  rw [restartCheck_Err]
  rfl

theorem value_na_of_err (s : Service) (h : s.Err.isSome = true) (name : VarName) :
    s.Value name = "N/A" := by
  unfold Service.Value
  simp [h]

/-- C1 counterexample: a concrete pair of consecutive ticks on a fresh
service where the first tick's fetch succeeds and leaves Err nil, the
second tick's fetch fails, no uptime-counter regression occurred, and yet
the Restarted flag is still false after the second tick — refuting the
claim that the healthy-to-erroring transition sets it. -/
theorem healthy_to_error_leaves_restarted_unset_cex :
    (svcFresh.Update docGood none).Err = none ∧
    (svcFresh.Update docGood none).Restarted = false ∧
    ((svcFresh.Update docGood none).Update emptyDoc
        (some "connection refused")).Restarted = false := by
  refine ⟨rfl, rfl, rfl⟩

/-- C1 (amended): for any two consecutive Update ticks on the same Service
where the first tick's fetch fails (Err is non-nil afterwards) and the
second tick's fetch succeeds, the Restarted flag is true after the second
tick — the transition the code rewards is erroring-to-healthy, not
healthy-to-erroring. -/
theorem restarted_set_after_error_to_success_transition
    (s : Service) (doc1 doc2 : JValue) (e : String) :
    ((s.Update doc1 (some e)).Update doc2 none).Restarted = true :=
  update_restarted_of_prev_err (s.Update doc1 (some e)) doc2
    (update_Err_isSome_of_fetch_failure s doc1 e)

/-- C2: the Restarted flag is sticky: once true, any later Update — with
any fetch outcome and any observed document — leaves it true; no state
transition of the embedded core assigns it false (the accessors `Value`,
`Values` and `Max` are pure and mutate nothing). -/
theorem restarted_is_sticky (s : Service) (doc : JValue) (ferr : Option String)
    (h : s.Restarted = true) : (s.Update doc ferr).Restarted = true :=
  update_Restarted_mono s doc ferr h

/-- C2 witness: a service with the flag set keeps it through a failing
tick on an empty document. -/
theorem restarted_is_sticky_witness :
    (svcRestarted.Update emptyDoc (some "down")).Restarted = true :=
  restarted_is_sticky svcRestarted emptyDoc (some "down") rfl

/-- C3: on a tick whose uptime-counter read succeeds with value c, the
counter step sets Restarted exactly when the previously stored counter is
strictly greater than c (otherwise leaving it unchanged), and always
overwrites the stored counter with c. -/
theorem counter_regression_sets_restarted (s : Service) (doc : JValue) (c : Int)
    (h : getInt64 doc uptimeCounter = .ok c) :
    (s.counterStep doc).Restarted =
      (if s.UptimeCounter > c then true else s.Restarted) ∧
    (s.counterStep doc).UptimeCounter = c := by
  unfold Service.counterStep
  rw [h]
  exact ⟨rfl, rfl⟩

/-- C3 witness: a service that had counter 250 and observes 40 is marked
restarted and stores 40. -/
theorem counter_regression_sets_restarted_witness :
    getInt64 doc40 uptimeCounter = .ok 40 ∧
    (svc250.counterStep doc40).Restarted = true ∧
    (svc250.counterStep doc40).UptimeCounter = 40 := by
  have h := counter_regression_sets_restarted svc250 doc40 40 rfl
  refine ⟨rfl, ?_, h.2⟩
  rw [h.1]
  rfl

/-- C9: the fetch-transition check sets Restarted on the recovery
transition — previous Err non-nil and current fetch succeeding — and a
tick whose fetch fails after a healthy tick leaves Restarted unchanged as
far as the fetch-transition check is concerned. -/
theorem restart_on_recovery_transition (s : Service) (doc : JValue) :
    (s.Err.isSome = true → (s.Update doc none).Restarted = true) ∧
    (∀ e, s.Err = none → (s.restartCheck (some e)).Restarted = s.Restarted) := by
  constructor
  · exact fun h => update_restarted_of_prev_err s doc h
  · intro e hE
    rw [restartCheck_Restarted, hE]
    rfl

/-- C9 witness: an erroring service is marked restarted by a successful
tick on the empty document, and the fetch-transition check of a failing
tick on a healthy service leaves the flag alone. -/
theorem restart_on_recovery_transition_witness :
    (svcErr.Update emptyDoc none).Restarted = true ∧
    (svcFresh.restartCheck (some "boom")).Restarted = svcFresh.Restarted :=
  ⟨(restart_on_recovery_transition svcErr emptyDoc).1 rfl,
   (restart_on_recovery_transition svcFresh emptyDoc).2 "boom" rfl⟩

theorem asInt64_jarr (xs : List JValue) : asInt64 (.jarr xs) = none := rfl

/-- C4: guessValue is deterministic (it is a function) and coincides with
the spec's fixed priority chain — 64-bit integer, then 64-bit float, then
boolean, then string, then array, first success winning — and a value
matching none of the five interpretations yields nothing. -/
theorem guessValue_priority_order (v : JValue) :
    guessValue v = normalizeSpec v ∧
    (asInt64 v = none → asFloat64 v = none → asBoolean v = none →
     asString v = none → asArray v = none → guessValue v = none) := by
  constructor
  · cases h1 : asInt64 v with
    | some n => simp [guessValue, normalizeSpec, h1]
    | none =>
      cases h2 : asFloat64 v with
      | some q => simp [guessValue, normalizeSpec, h1, h2]
      | none =>
        cases h3 : asBoolean v with
        | some b => simp [guessValue, normalizeSpec, h1, h2, h3]
        | none =>
          cases h4 : asString v with
          | some sv => simp [guessValue, normalizeSpec, h1, h2, h3, h4]
          | none =>
            cases h5 : asArray v with
            | none => simp [guessValue, normalizeSpec, h1, h2, h3, h4, h5]
            | some xs =>
              cases xs with
              | nil =>
                simp [guessValue, normalizeSpec, normalizeArray, h1, h2, h3, h4, h5]
              | cons hd tl =>
                cases ha : asInt64 hd <;>
                  simp [guessValue, normalizeSpec, normalizeArray, h1, h2, h3, h4, h5, ha]
  · intro h1 h2 h3 h4 h5
    simp [guessValue, h1, h2, h3, h4, h5]

/-- C4 witness: JSON null matches none of the five interpretations and
normalizes to nothing, in agreement with the spec chain. -/
theorem guessValue_priority_order_witness :
    guessValue JValue.jnull = normalizeSpec JValue.jnull ∧
    guessValue JValue.jnull = none :=
  ⟨(guessValue_priority_order .jnull).1,
   (guessValue_priority_order .jnull).2 rfl rfl rfl rfl rfl⟩

/-- C5: the array rule of guessValue: an empty array yields Integer 0; a
non-empty array yields the mean of its elements, truncated to an Integer
exactly when the first element is interpretable as a 64-bit integer and
kept as a Float otherwise; in particular the array 1,2,3 yields Integer 2
and the array 1.5,2.5 yields Float 2. -/
theorem guessValue_array_rule :
    guessValue (.jarr []) = some (.int 0) ∧
    (∀ h t, guessValue (.jarr (h :: t)) =
      some (if (asInt64 h).isSome then CanValue.int (truncQ (averageJason (h :: t)))
            else CanValue.float (averageJason (h :: t)))) ∧
    guessValue (.jarr [.jint 1, .jint 2, .jint 3]) = some (.int 2) ∧
    guessValue (.jarr [.jfloat 1.5, .jfloat 2.5]) = some (.float 2) := by
  refine ⟨by decide, ?_, ?_, ?_⟩
  · intro h t
    cases ha : asInt64 h <;>
      simp [guessValue, asInt64_jarr, asFloat64, asBoolean, asString, asArray, ha]
  · have havg : averageJason [JValue.jint 1, JValue.jint 2, JValue.jint 3] = 2 := by
      norm_num [averageJason, asFloat64]
    simp [guessValue, asInt64, asFloat64, asBoolean, asString, asArray,
      int64Min, int64Max, havg]
    decide
  · have havg : averageJason [JValue.jfloat 1.5, JValue.jfloat 2.5] = 2 := by
      norm_num [averageJason, asFloat64]
    simp [guessValue, asInt64, asFloat64, asBoolean, asString, asArray,
      int64Min, int64Max, havg]

/-- C6: command line and display name are resolved at most once: a Service
whose Cmdline is already non-empty keeps both Cmdline and Name unchanged
through any Update, whatever the fetched document carries; the resolution
attempt is guarded by the stored command line still being empty. -/
theorem cmdline_resolved_at_most_once (s : Service) (doc : JValue)
    (ferr : Option String) (h : s.Cmdline ≠ "") :
    (s.Update doc ferr).Cmdline = s.Cmdline ∧ (s.Update doc ferr).Name = s.Name := by
  have hdata : s.Cmdline.data ≠ [] := fun hc => h (String.ext hc)
  have hlen : (((s.restartCheck ferr).counterStep doc).Cmdline.length == 0) = false := by
    rw [counterStep_Cmdline, restartCheck_Cmdline]
    exact beq_false_of_ne fun hc => hdata (List.length_eq_zero.mp hc)
  have hskip := cmdlineStep_skip ((s.restartCheck ferr).counterStep doc) doc hlen
  constructor
  · show (s.Update doc ferr).Cmdline = s.Cmdline
    unfold Service.Update
    rw [varsStep_Cmdline, hskip, counterStep_Cmdline, restartCheck_Cmdline]
  · show (s.Update doc ferr).Name = s.Name
    unfold Service.Update
    rw [varsStep_Name, hskip, counterStep_Name, restartCheck_Name]

/-- C6 witness: a service with a resolved command line keeps command line
and name through a tick whose document carries a different cmdline. -/
theorem cmdline_resolved_at_most_once_witness :
    (svc250.Update docOther none).Cmdline = svc250.Cmdline ∧
    (svc250.Update docOther none).Name = svc250.Name :=
  cmdline_resolved_at_most_once svc250 docOther none (by decide)

/-- C7: in one tick, for a tracked variable: a failed extraction pushes
Absent (nil) onto that variable's stack while the vars step never touches
Err; a successful extraction whose normalization yields nothing performs
no push, leaving the stack (hence its Front) unchanged; a successful
normalization pushes the normalized value. -/
theorem var_extraction_push_behavior (s : Service) (doc : JValue)
    (ferr : Option String) (name : VarName) (st : Stack)
    (h : s.stackMap name = some st) :
    (s.varsStep doc).Err = s.Err ∧
    (∀ e, getValue doc (VarName.ToSlice name) = .error e →
      (s.Update doc ferr).stackMap name = some (st.Push none)) ∧
    (∀ v, getValue doc (VarName.ToSlice name) = .ok v → guessValue v = none →
      (s.Update doc ferr).stackMap name = some st) ∧
    (∀ v c, getValue doc (VarName.ToSlice name) = .ok v → guessValue v = some c →
      (s.Update doc ferr).stackMap name = some (st.Push (some c))) := by
  refine ⟨varsStep_Err s doc, ?_, ?_, ?_⟩
  · intro e hget
    rw [update_stackMap, h]
    simp [varStep, hget]
  · intro v hget hguess
    rw [update_stackMap, h]
    simp [varStep, hget, hguess]
  · intro v c hget hguess
    rw [update_stackMap, h]
    simp [varStep, hget, hguess]

/-- C7 witness: with the tracked variable missing from the empty document,
the tick pushes Absent onto its stack, and the vars step leaves Err
unchanged. -/
theorem var_extraction_push_behavior_witness :
    (svcFresh.varsStep emptyDoc).Err = svcFresh.Err ∧
    (svcFresh.Update emptyDoc none).stackMap ⟨"x"⟩ = some (NewStack.Push none) := by
  have h := var_extraction_push_behavior svcFresh emptyDoc none ⟨"x"⟩ NewStack rfl
  exact ⟨h.1, h.2.1 "key not found" rfl⟩

/-- C8: Value(name) returns the not-available sentinel whenever Err is
set (whatever the variable's buffer holds), whenever the name is
untracked, and whenever the buffer's Front is empty; otherwise it formats
Front through the Formatter with the variable's Kind. -/
theorem value_not_available_semantics (s : Service) (name : VarName) :
    (s.Err.isSome = true → s.Value name = "N/A") ∧
    (s.stackMap name = none → s.Value name = "N/A") ∧
    (∀ st, s.stackMap name = some st → st.Front = none → s.Value name = "N/A") ∧
    (∀ st v, s.Err = none → s.stackMap name = some st → st.Front = some v →
      s.Value name = Format v (VarName.Kind name)) := by
  refine ⟨fun h => value_na_of_err s h name, ?_, ?_, ?_⟩
  · intro h
    unfold Service.Value
    split
    · rfl
    · simp [h]
  · intro st hst hfr
    unfold Service.Value
    split
    · rfl
    · simp [hst, hfr]
  · intro st v hE hst hfr
    unfold Service.Value
    simp [hE, hst, hfr]

/-- C8 witness: a service with Err set reports the sentinel for its
tracked variable. -/
theorem value_not_available_semantics_witness :
    svcErr.Value ⟨"x"⟩ = "N/A" :=
  (value_not_available_semantics svcErr ⟨"x"⟩).1 rfl

/-- C10: even on a successful fetch, Update records a non-nil Err when the
uptime-counter path is missing or unreadable, and likewise when the
command line is still unresolved and the cmdline path is unreadable; any
name then displays the not-available sentinel, while the per-variable
stacks are still updated exactly as the extraction loop dictates. -/
theorem successful_fetch_can_still_set_err (s : Service) (doc : JValue) :
    (∀ e, getInt64 doc uptimeCounter = .error e →
      ((s.Update doc none).Err).isSome = true ∧
      ∀ name, (s.Update doc none).Value name = "N/A") ∧
    (∀ e, s.Cmdline = "" → getStringArray doc ["cmdline"] = .error e →
      ((s.Update doc none).Err).isSome = true ∧
      ∀ name, (s.Update doc none).Value name = "N/A") ∧
    (∀ name st, s.stackMap name = some st →
      (s.Update doc none).stackMap name = some (varStep doc name st)) := by
  have key1 : ∀ e, getInt64 doc uptimeCounter = .error e →
      ((s.Update doc none).Err).isSome = true := by
    intro e hg
    unfold Service.Update
    rw [varsStep_Err]
    apply cmdlineStep_Err_isSome
    unfold Service.counterStep
    rw [hg]
    rfl
  have key2 : ∀ e, s.Cmdline = "" → getStringArray doc ["cmdline"] = .error e →
      ((s.Update doc none).Err).isSome = true := by
    intro e hc hg
    unfold Service.Update
    rw [varsStep_Err]
    unfold Service.cmdlineStep
    rw [counterStep_Cmdline, restartCheck_Cmdline, hc, hg]
    simp
  refine ⟨fun e hg => ⟨key1 e hg, fun name => value_na_of_err _ (key1 e hg) name⟩,
          fun e hc hg => ⟨key2 e hc hg, fun name => value_na_of_err _ (key2 e hc hg) name⟩,
          fun name st h => ?_⟩
  rw [update_stackMap, h]
  rfl

/-- C10 witness: a fresh service polled with an empty document has Err set
and displays the sentinel although the fetch itself succeeded. -/
theorem successful_fetch_can_still_set_err_witness :
    ((svcFresh.Update emptyDoc none).Err).isSome = true ∧
    (svcFresh.Update emptyDoc none).Value ⟨"x"⟩ = "N/A" := by
  have h := (successful_fetch_can_still_set_err svcFresh emptyDoc).1 "key not found" rfl
  exact ⟨h.1, h.2 ⟨"x"⟩⟩

end Expvarmon
